import Mathlib

/-!
Shallow embedding of `src/main.py`, a byte-oriented diff/patch tool.

Byte sequences are modelled as `List Nat` (entries 0..255 in actual use).
Python integers are modelled as `Int` where negative values can occur
(cell predecessor indices use the sentinel -1, and `Operation.location`
can become -1 through the sentinel cell), and as `Nat` elsewhere.
Fallible Python code (IndexError, struct.error, ValueError, AssertionError)
is modelled with `Except PyErr`.  The 4-byte `struct.pack('I', ...)` field
is modelled little-endian, matching the reference platform's native order.
-/

/-- Python exception outcomes relevant to `main.py`. `infiniteLoop` marks a
state in which the `apply_patch` while-loop can never terminate (its body
leaves the state unchanged while the loop condition stays true). -/
inductive PyErr where
  | indexError
  | structError
  | valueError
  | assertionError
  | infiniteLoop
  deriving DecidableEq, Repr

/-- Cost of one inserted byte (`INSERT_COST = 3` in main.py line 12). -/
def INSERT_COST : Nat := 3

/-- Cost of one deleted byte (`DELETE_COST = 3` in main.py line 13). -/
def DELETE_COST : Nat := 3

/-- Cost of one replaced byte (`REPLACE_COST = 2` in main.py line 14). -/
def REPLACE_COST : Nat := 2

/-- The `Distance` namedtuple of main.py line 11: minimal cost of a prefix
transformation together with the back-pointer to the predecessor cell. -/
structure Distance where
  cost : Nat
  prev_i : Int
  prev_j : Int
  deriving DecidableEq, Repr

/-- Python's two-argument `min` with `key=lambda d: d.cost`: the second
argument replaces the first only when its key is strictly smaller, so on
ties the first argument wins. -/
def min2 (a b : Distance) : Distance :=
  if b.cost < a.cost then b else a

/-- Python's `min(a, b, c, key=lambda d: d.cost)` (main.py lines 52-55):
left fold of `min2`, so the earliest argument wins on exact ties. -/
def min3 (a b c : Distance) : Distance :=
  min2 (min2 a b) c

/-- Row 0 of the alignment table (main.py lines 44-45):
`distance[0][0] = Distance(0, -1, -1)` and
`distance[0][j] = Distance(distance[0][j-1].cost + INSERT_COST, 0, j-1)`. -/
def drow0 : Nat → Distance
  | 0 => ⟨0, -1, -1⟩
  | j + 1 => ⟨(drow0 j).cost + INSERT_COST, 0, (j : Int)⟩

/-- Row `i+1` of the alignment table as a function of row `i` (`prev`),
main.py lines 47-57.  The argument `i` is the Python row index minus one, so
`s1.getD i 0` is Python's `s1[i-1]` and `s2.getD j 0` is `s2[j-1]`. -/
def drowSucc (s1 s2 : List Nat) (i : Nat) (prev : Nat → Distance) : Nat → Distance
  | 0 => ⟨(prev 0).cost + DELETE_COST, (i : Int), 0⟩
  | j + 1 =>
    if s1.getD i 0 ≠ s2.getD j 0 then
      min3 ⟨(prev (j + 1)).cost + DELETE_COST, (i : Int), (j : Int) + 1⟩
           ⟨(drowSucc s1 s2 i prev j).cost + INSERT_COST, (i : Int) + 1, (j : Int)⟩
           ⟨(prev j).cost + REPLACE_COST, (i : Int), (j : Int)⟩
    else ⟨(prev j).cost, (i : Int), (j : Int)⟩

/-- All rows of the alignment table, built row by row like the Python loops. -/
def drow (s1 s2 : List Nat) : Nat → Nat → Distance
  | 0 => drow0
  | i + 1 => drowSucc s1 s2 i (drow s1 s2 i)

/-- The alignment table of `levenstein_distance` (main.py lines 38-59) as a
function of the two indices: `levenstein_distance s1 s2 i j` is the Python
`distance[i][j]` for `i ≤ len s1`, `j ≤ len s2`. -/
def levenstein_distance (s1 s2 : List Nat) (i j : Nat) : Distance :=
  drow s1 s2 i j

/-- The `OpCode` IntEnum of main.py lines 17-20. -/
inductive OpCode where
  | INSERT
  | DELETE
  | REPLACE
  deriving DecidableEq, Repr

/-- Numeric value of an `OpCode` (INSERT=0, DELETE=1, REPLACE=2). -/
def opCodeToNat : OpCode → Nat
  | .INSERT => 0
  | .DELETE => 1
  | .REPLACE => 2

/-- Python `OpCode(n)`: raises ValueError when `n` is not 0, 1 or 2. -/
def opCodeOfNat (n : Nat) : Except PyErr OpCode :=
  if n = 0 then .ok .INSERT
  else if n = 1 then .ok .DELETE
  else if n = 2 then .ok .REPLACE
  else .error .valueError

/-- The `Operation` dataclass of main.py lines 23-27.  `location` is a
Python int and is therefore modelled as `Int`: the backtracking bug can
produce the value -1 here. -/
structure Operation where
  code : OpCode
  location : Int
  new_byte : Nat
  deriving DecidableEq, Repr

/-- Python sequence indexing `l[i]` on a byte sequence: negative indices
count from the end, and an out-of-range index raises IndexError. -/
def pyGet (l : List Nat) (i : Int) : Except PyErr Nat :=
  if i < 0 then
    if 0 ≤ (l.length : Int) + i then .ok (l.getD ((l.length : Int) + i).toNat 0)
    else .error .indexError
  else
    if i < (l.length : Int) then .ok (l.getD i.toNat 0)
    else .error .indexError

/-- The backtracking while-loop of `edit_path` (main.py lines 68-80),
fuel-indexed.  The walk is at cell `(i, j)` (Python ints), `path` is the
accumulator; an operation is prepended when emitted, so the final list is
already in the order of Python's `reversed(path)`.  The loop condition,
the three branch tests, and the element accesses `s2[prev_j]`,
`s1[prev_i]`, `s2[prev_j]`, `s2[j-1]` mirror the source line by line; in
particular the loop only stops at `(i, j) = (-1, -1)`, so the sentinel
cell `(0, 0)` with predecessor `(-1, -1)` is processed like any other
cell.  The fuel passed by `edit_path` always exceeds the number of
iterations, so `.error .infiniteLoop` is never returned from actual use. -/
def walkFuel (s1 s2 : List Nat) : Nat → Int → Int → List Operation → Except PyErr (List Operation)
  | 0, _, _, _ => .error .infiniteLoop
  | fuel + 1, i, j, path =>
    if i = -1 ∧ j = -1 then .ok path
    else
      if (levenstein_distance s1 s2 i.toNat j.toNat).prev_i = i - 1 ∧
         (levenstein_distance s1 s2 i.toNat j.toNat).prev_j = j then
        walkFuel s1 s2 fuel (levenstein_distance s1 s2 i.toNat j.toNat).prev_i
          (levenstein_distance s1 s2 i.toNat j.toNat).prev_j
          ({ code := .DELETE, location := (levenstein_distance s1 s2 i.toNat j.toNat).prev_i,
             new_byte := 0 } :: path)
      else if (levenstein_distance s1 s2 i.toNat j.toNat).prev_i = i ∧
              (levenstein_distance s1 s2 i.toNat j.toNat).prev_j = j - 1 then
        match pyGet s2 (levenstein_distance s1 s2 i.toNat j.toNat).prev_j with
        | .error e => .error e
        | .ok v =>
          walkFuel s1 s2 fuel (levenstein_distance s1 s2 i.toNat j.toNat).prev_i
            (levenstein_distance s1 s2 i.toNat j.toNat).prev_j
            ({ code := .INSERT, location := (levenstein_distance s1 s2 i.toNat j.toNat).prev_i,
               new_byte := v } :: path)
      else if (levenstein_distance s1 s2 i.toNat j.toNat).prev_i = i - 1 ∧
              (levenstein_distance s1 s2 i.toNat j.toNat).prev_j = j - 1 then
        match pyGet s1 (levenstein_distance s1 s2 i.toNat j.toNat).prev_i with
        | .error e => .error e
        | .ok a =>
          match pyGet s2 (levenstein_distance s1 s2 i.toNat j.toNat).prev_j with
          | .error e => .error e
          | .ok b =>
            if a ≠ b then
              match pyGet s2 (j - 1) with
              | .error e => .error e
              | .ok v =>
                walkFuel s1 s2 fuel (levenstein_distance s1 s2 i.toNat j.toNat).prev_i
                  (levenstein_distance s1 s2 i.toNat j.toNat).prev_j
                  ({ code := .REPLACE, location := (levenstein_distance s1 s2 i.toNat j.toNat).prev_i,
                     new_byte := v } :: path)
            else
              walkFuel s1 s2 fuel (levenstein_distance s1 s2 i.toNat j.toNat).prev_i
                (levenstein_distance s1 s2 i.toNat j.toNat).prev_j path
      else
        walkFuel s1 s2 fuel (levenstein_distance s1 s2 i.toNat j.toNat).prev_i
          (levenstein_distance s1 s2 i.toNat j.toNat).prev_j path

/-- `edit_path` (main.py lines 62-82): start the backtracking walk at cell
`(len s1, len s2)`.  The walk visits at most `len s1 + len s2 + 2` cells
(the back-pointer strictly decreases `i + j` until the sentinel exit), so
this fuel is always sufficient. -/
def edit_path (s1 s2 : List Nat) : Except PyErr (List Operation) :=
  walkFuel s1 s2 (s1.length + s2.length + 2) (s1.length : Int) (s2.length : Int) []

/-- Encoding of one operation as a 6-byte record (main.py line 94):
`bytes([edit.code, *struct.pack('I', edit.location), edit.new_byte])`.
`struct.pack('I', x)` raises struct.error unless `0 ≤ x < 2^32` (this is
what happens on the spurious location -1); `bytes([...])` raises
ValueError if the payload is not a byte.  The location field is
little-endian. -/
def encodeOp (op : Operation) : Except PyErr (List Nat) :=
  if 0 ≤ op.location ∧ op.location < 4294967296 then
    if op.new_byte < 256 then
      .ok [opCodeToNat op.code,
           op.location.toNat % 256,
           op.location.toNat / 256 % 256,
           op.location.toNat / 65536 % 256,
           op.location.toNat / 16777216 % 256,
           op.new_byte]
    else .error .valueError
  else .error .structError

/-- The encoding loop of `calculate_diff` (main.py lines 92-94): records are
written one after the other in sequence order. -/
def encodeOps : List Operation → Except PyErr (List Nat)
  | [] => .ok []
  | op :: ops =>
    match encodeOp op with
    | .error e => .error e
    | .ok r =>
      match encodeOps ops with
      | .error e => .error e
      | .ok rs => .ok (r ++ rs)

/-- The decoding comprehension of `apply_patch` (main.py lines 100-101) over
`file_iter(patch_file, 6, True)`: the stream is consumed in 6-byte chunks;
a short trailing chunk fails the `assert len(b) == batch_size` of
`file_iter` (main.py line 33, AssertionError), and `OpCode(edit_bytes[0])`
raises ValueError on a tag outside {0, 1, 2}.  The location is recombined
little-endian from bytes 1..4 (`struct.unpack('I', ...)`). -/
def decodeStream : List Nat → Except PyErr (List Operation)
  | [] => .ok []
  | t :: l0 :: l1 :: l2 :: l3 :: p :: rest =>
    match opCodeOfNat t with
    | .error e => .error e
    | .ok c =>
      match decodeStream rest with
      | .error e => .error e
      | .ok ops =>
        .ok ({ code := c,
               location := ((l0 + l1 * 256 + l2 * 65536 + l3 * 16777216 : Nat) : Int),
               new_byte := p } :: ops)
  | _ :: _ => .error .assertionError

/-- State of the replay loop of `apply_patch` (main.py lines 107-124):
cursor into the original data, cursor into the edit list, bytes written so
far. -/
structure ApplyState where
  data_i : Nat
  edit_i : Nat
  out : List Nat
  deriving DecidableEq, Repr

/-- The while-loop condition of main.py line 110:
`data_i < len(old_data) or edit_i < len(edits)`. -/
def applyCond (old : List Nat) (edits : List Operation) (s : ApplyState) : Prop :=
  s.data_i < old.length ∨ s.edit_i < edits.length

/-- One execution of the loop body of main.py lines 110-124.  When the next
edit's location matches `data_i` the edit fires (Replace emits the payload
and consumes one original byte, Insert emits the payload only, Delete
consumes one original byte); otherwise a remaining original byte is copied;
otherwise the body does nothing and the state is returned unchanged, which
in Python means the loop never terminates. -/
def applyStep (old : List Nat) (edits : List Operation) (s : ApplyState) : ApplyState :=
  if s.edit_i < edits.length ∧
     (edits.getD s.edit_i { code := .INSERT, location := 0, new_byte := 0 }).location = (s.data_i : Int) then
    match (edits.getD s.edit_i { code := .INSERT, location := 0, new_byte := 0 }).code with
    | .REPLACE =>
      { data_i := s.data_i + 1, edit_i := s.edit_i + 1,
        out := s.out ++ [(edits.getD s.edit_i { code := .INSERT, location := 0, new_byte := 0 }).new_byte] }
    | .INSERT =>
      { data_i := s.data_i, edit_i := s.edit_i + 1,
        out := s.out ++ [(edits.getD s.edit_i { code := .INSERT, location := 0, new_byte := 0 }).new_byte] }
    | .DELETE =>
      { data_i := s.data_i + 1, edit_i := s.edit_i + 1, out := s.out }
  else if s.data_i < old.length then
    { data_i := s.data_i + 1, edit_i := s.edit_i, out := s.out ++ [old.getD s.data_i 0] }
  else s

/-- Fuel-indexed iteration of the replay loop.  A step that changes nothing
while the loop condition holds is a fixed point of the Python loop body, so
the Python program loops forever there; this is reported as
`.error .infiniteLoop`.  Every productive step increases `data_i + edit_i`,
so the fuel used by `apply_patch` is sufficient for all terminating runs. -/
def applyGo (old : List Nat) (edits : List Operation) : Nat → ApplyState → Except PyErr (List Nat)
  | 0, _ => .error .infiniteLoop
  | fuel + 1, s =>
    if s.data_i < old.length ∨ s.edit_i < edits.length then
      if applyStep old edits s = s then .error .infiniteLoop
      else applyGo old edits fuel (applyStep old edits s)
    else .ok s.out

/-- The replay portion of `apply_patch` (main.py lines 106-124), acting on
an already-decoded edit list. -/
def apply_patch (old : List Nat) (edits : List Operation) : Except PyErr (List Nat) :=
  applyGo old edits (old.length + edits.length + 1) { data_i := 0, edit_i := 0, out := [] }

/-- Cost charged for one emitted operation under the spec's cost model. -/
def opCost : OpCode → Nat
  | .INSERT => INSERT_COST
  | .DELETE => DELETE_COST
  | .REPLACE => REPLACE_COST

/-- Total cost of an operation sequence. -/
def opsCost (ops : List Operation) : Nat :=
  (ops.map (fun op => opCost op.code)).sum

/-- The end-to-end pipeline of the two driver functions (main.py lines
85-124): align and reconstruct, encode, decode, replay. -/
def roundTrip (a b : List Nat) : Except PyErr (List Nat) :=
  match edit_path a b with
  | .error e => .error e
  | .ok ops =>
    match encodeOps ops with
    | .error e => .error e
    | .ok s =>
      match decodeStream s with
      | .error e => .error e
      | .ok ops2 => apply_patch a ops2

/-- Comparison of two operations by location; the patch-order invariant is
`List.Pairwise locle`. -/
def locle (a b : Operation) : Prop :=
  a.location ≤ b.location

/-- `min3` returns one of its three arguments. -/
theorem min3_mem (a b c : Distance) : min3 a b c = a ∨ min3 a b c = b ∨ min3 a b c = c := by
  unfold min3 min2
  split_ifs <;> simp

/-- `min3` selects the smallest cost with first-argument-wins tie-breaking. -/
theorem min3_eq (a b c : Distance) :
    min3 a b c =
      if a.cost ≤ b.cost ∧ a.cost ≤ c.cost then a
      else if b.cost ≤ c.cost then b
      else c := by
  unfold min3 min2
  split_ifs <;> first | rfl | omega

/-- Back-pointers of every alignment cell: the sentinel cell points to
`(-1, -1)`, every other cell points to a cell with nonnegative indices
whose row index is at most the cell's own row index. -/
theorem drow_prev (s1 s2 : List Nat) (p q : Nat) :
    ((drow s1 s2 p q).prev_i = -1 ∧ (drow s1 s2 p q).prev_j = -1) ∨
    (0 ≤ (drow s1 s2 p q).prev_i ∧ 0 ≤ (drow s1 s2 p q).prev_j ∧
      (drow s1 s2 p q).prev_i ≤ (p : Int)) := by
  match p, q with
  | 0, 0 => exact Or.inl ⟨rfl, rfl⟩
  | 0, q + 1 =>
    refine Or.inr ?_
    simp [drow, drow0]
  | p + 1, 0 =>
    refine Or.inr ?_
    simp [drow, drowSucc]
  | p + 1, q + 1 =>
    refine Or.inr ?_
    have hd : drow s1 s2 (p + 1) (q + 1) = drowSucc s1 s2 p (drow s1 s2 p) (q + 1) := rfl
    rw [hd, drowSucc]
    split
    · rcases min3_mem ⟨(drow s1 s2 p (q + 1)).cost + DELETE_COST, (p : Int), (q : Int) + 1⟩
        ⟨(drowSucc s1 s2 p (drow s1 s2 p) q).cost + INSERT_COST, (p : Int) + 1, (q : Int)⟩
        ⟨(drow s1 s2 p q).cost + REPLACE_COST, (p : Int), (q : Int)⟩ with h | h | h <;>
        rw [h] <;> dsimp only <;> omega
    · dsimp only
      omega

/-- Claim C6: for every table cell `(i, j)` with `i, j ≥ 1` where
`original[i-1] ≠ target[j-1]`, the stored cell is the minimum-cost
candidate among delete from `(i-1, j)` costing +3, insert from `(i, j-1)`
costing +3, and replace from `(i-1, j-1)` costing +2, and on exact cost
ties the first of delete, insert, replace in that order wins. -/
theorem c6_tiebreak (s1 s2 : List Nat) (i j : Nat) (hi1 : 1 ≤ i) (hj1 : 1 ≤ j)
    (hbi : i ≤ s1.length) (hbj : j ≤ s2.length)
    (hne : s1.getD (i - 1) 0 ≠ s2.getD (j - 1) 0) :
    levenstein_distance s1 s2 i j =
      if (levenstein_distance s1 s2 (i - 1) j).cost + DELETE_COST ≤
           (levenstein_distance s1 s2 i (j - 1)).cost + INSERT_COST ∧
         (levenstein_distance s1 s2 (i - 1) j).cost + DELETE_COST ≤
           (levenstein_distance s1 s2 (i - 1) (j - 1)).cost + REPLACE_COST then
        ⟨(levenstein_distance s1 s2 (i - 1) j).cost + DELETE_COST,
          ((i - 1 : Nat) : Int), ((j : Nat) : Int)⟩
      else if (levenstein_distance s1 s2 i (j - 1)).cost + INSERT_COST ≤
           (levenstein_distance s1 s2 (i - 1) (j - 1)).cost + REPLACE_COST then
        ⟨(levenstein_distance s1 s2 i (j - 1)).cost + INSERT_COST,
          ((i : Nat) : Int), ((j - 1 : Nat) : Int)⟩
      else
        ⟨(levenstein_distance s1 s2 (i - 1) (j - 1)).cost + REPLACE_COST,
          ((i - 1 : Nat) : Int), ((j - 1 : Nat) : Int)⟩ := by
  obtain ⟨p, rfl⟩ : ∃ p, i = p + 1 := ⟨i - 1, by omega⟩
  obtain ⟨q, rfl⟩ : ∃ q, j = q + 1 := ⟨j - 1, by omega⟩
  simp only [Nat.add_sub_cancel] at hne ⊢
  have hd : levenstein_distance s1 s2 (p + 1) (q + 1) =
      drowSucc s1 s2 p (drow s1 s2 p) (q + 1) := rfl
  rw [hd, drowSucc, if_pos hne, min3_eq]
  simp only [levenstein_distance, drow]
  push_cast
  rfl

/-- Witness for `c6_tiebreak` at `s1 = [1, 2]`, `s2 = [1, 3]`, `i = j = 2`:
bytes 2 and 3 differ, replace wins (cost 0+2 against 3+3 and 3+3). -/
theorem c6_tiebreak_witness :
    (1 ≤ 2 ∧ 2 ≤ ([1, 2] : List Nat).length ∧ 2 ≤ ([1, 3] : List Nat).length ∧
      ([1, 2] : List Nat).getD (2 - 1) 0 ≠ ([1, 3] : List Nat).getD (2 - 1) 0) ∧
    levenstein_distance [1, 2] [1, 3] 2 2 = ⟨2, 1, 1⟩ :=
  ⟨by decide, c6_tiebreak [1, 2] [1, 3] 2 2 (by decide) (by decide) (by decide) (by decide)
    (by decide)⟩

/-- Claim C1 (refuted on the code): the end-to-end round trip fails on
`A = [1]`, `B = [2]`.  Backtracking walks past cell `(0, 0)` to the
`(-1, -1)` sentinel, where `s1[-1] ≠ s2[-1]` (Python negative indexing of
the last bytes) emits a spurious Replace at location -1; encoding that
operation then raises struct.error in `struct.pack('I', -1)`, so the
pipeline errors instead of reproducing `B`. -/
theorem c1_roundtrip_fails :
    edit_path [1] [2] =
      .ok [{ code := .REPLACE, location := -1, new_byte := 2 },
           { code := .REPLACE, location := 0, new_byte := 2 }] ∧
    roundTrip [1] [2] = .error .structError := by
  exact ⟨rfl, rfl⟩

/-- Claim C2 (refuted on the code): on `A = [3]`, `B = [4]` the emitted
path consists of two Replace operations (one of them the spurious sentinel
one), totalling cost 4, while the final alignment cell `(1, 1)` records
the minimum cost 2. -/
theorem c2_cost_mismatch :
    edit_path [3] [4] =
      .ok [{ code := .REPLACE, location := -1, new_byte := 4 },
           { code := .REPLACE, location := 0, new_byte := 4 }] ∧
    opsCost [{ code := .REPLACE, location := -1, new_byte := 4 },
             { code := .REPLACE, location := 0, new_byte := 4 }] = 4 ∧
    (levenstein_distance [3] [4] 1 1).cost = 2 := by
  exact ⟨rfl, rfl, rfl⟩

/-- Claim C5 (refuted on the code): with empty original data and a single
decoded Insert edit at location 5, the replay loop's condition holds while
its body leaves the state unchanged, so the Python loop never terminates
and no MalformedPatch error is ever reported; the fuel model returns the
distinguished non-termination marker. -/
theorem c5_apply_stall :
    applyCond [] [{ code := .INSERT, location := 5, new_byte := 0 }]
      { data_i := 0, edit_i := 0, out := [] } ∧
    applyStep [] [{ code := .INSERT, location := 5, new_byte := 0 }]
      { data_i := 0, edit_i := 0, out := [] } = { data_i := 0, edit_i := 0, out := [] } ∧
    apply_patch [] [{ code := .INSERT, location := 5, new_byte := 0 }] =
      .error .infiniteLoop := by
  refine ⟨Or.inr (by decide), rfl, rfl⟩

/-- Claim C7 (refuted on the code): aligning with an empty sequence on
either side crashes.  When the backtracking walk reaches the sentinel cell
`(0, 0)` it evaluates `s1[-1]` and `s2[-1]`; on an empty sequence this
raises IndexError, so neither the all-Insert nor the all-Delete path is
ever produced. -/
theorem c7_empty_crashes :
    edit_path [] [9] = .error .indexError ∧
    edit_path [9] [] = .error .indexError := by
  exact ⟨rfl, rfl⟩

/-- Claim C8 (refuted on the code for the empty sequence): `Align([], [])`
raises IndexError at the sentinel cell instead of yielding zero
operations.  The remaining parts of the claim behave as stated on sample
inputs: aligning a nonempty sequence with itself yields no operations, and
applying the empty edit list returns the original unchanged. -/
theorem c8_identity_status :
    edit_path [] [] = .error .indexError ∧
    edit_path [7] [7] = .ok [] ∧
    apply_patch [7, 8] [] = .ok [7, 8] := by
  exact ⟨rfl, rfl, rfl⟩

/-- Claim C10 (refuted on the code): on `A = [10]`, `B = [20]` the path
reconstructor emits an operation at location -1 (the spurious sentinel
Replace), which lies outside every claimed bound. -/
theorem c10_negative_location :
    edit_path [10] [20] =
      .ok [{ code := .REPLACE, location := -1, new_byte := 20 },
           { code := .REPLACE, location := 0, new_byte := 20 }] ∧
    ¬ ∀ op ∈ [({ code := .REPLACE, location := -1, new_byte := 20 } : Operation),
              { code := .REPLACE, location := 0, new_byte := 20 }], 0 ≤ op.location := by
  exact ⟨rfl, by decide⟩

/-- Decoding a tag byte produced by `opCodeToNat` recovers the code. -/
theorem opCodeOfNat_toNat (c : OpCode) : opCodeOfNat (opCodeToNat c) = .ok c := by
  cases c <;> rfl

/-- Claim C3: encoding a well-formed operation sequence (locations fit in
an unsigned 4-byte field, payloads are bytes) as consecutive 6-byte
records and decoding the concatenated stream yields the same sequence. -/
theorem c3_codec_roundtrip (ops : List Operation)
    (h : ∀ op ∈ ops, 0 ≤ op.location ∧ op.location < 4294967296 ∧ op.new_byte < 256) :
    ∃ s, encodeOps ops = .ok s ∧ decodeStream s = .ok ops := by
  induction ops with
  | nil => exact ⟨[], rfl, rfl⟩
  | cons op ops ih =>
    obtain ⟨hop, hops⟩ := List.forall_mem_cons.mp h
    obtain ⟨s, hs1, hs2⟩ := ih hops
    have henc : encodeOp op =
        .ok [opCodeToNat op.code,
             op.location.toNat % 256,
             op.location.toNat / 256 % 256,
             op.location.toNat / 65536 % 256,
             op.location.toNat / 16777216 % 256,
             op.new_byte] := by
      rw [encodeOp, if_pos ⟨hop.1, hop.2.1⟩, if_pos hop.2.2]
    refine ⟨opCodeToNat op.code :: op.location.toNat % 256 :: op.location.toNat / 256 % 256 ::
      op.location.toNat / 65536 % 256 :: op.location.toNat / 16777216 % 256 ::
      op.new_byte :: s, ?_, ?_⟩
    · rw [encodeOps, henc, hs1]
      rfl
    · rw [decodeStream, opCodeOfNat_toNat, hs2]
      have hloc : ((op.location.toNat % 256 +
          op.location.toNat / 256 % 256 * 256 +
          op.location.toNat / 65536 % 256 * 65536 +
          op.location.toNat / 16777216 % 256 * 16777216 : Nat) : Int) = op.location := by
        have h1 : 0 ≤ op.location := hop.1
        have h2 : op.location < 4294967296 := hop.2.1
        omega
      rw [hloc]

/-- Witness for `c3_codec_roundtrip` on a sequence containing each opcode
and the extreme 4-byte location. -/
theorem c3_codec_roundtrip_witness :
    (∀ op ∈ [({ code := .INSERT, location := 0, new_byte := 65 } : Operation),
             { code := .DELETE, location := 4294967295, new_byte := 0 },
             { code := .REPLACE, location := 7, new_byte := 255 }],
       0 ≤ op.location ∧ op.location < 4294967296 ∧ op.new_byte < 256) ∧
    ∃ s, encodeOps [({ code := .INSERT, location := 0, new_byte := 65 } : Operation),
             { code := .DELETE, location := 4294967295, new_byte := 0 },
             { code := .REPLACE, location := 7, new_byte := 255 }] = .ok s ∧
      decodeStream s = .ok [({ code := .INSERT, location := 0, new_byte := 65 } : Operation),
             { code := .DELETE, location := 4294967295, new_byte := 0 },
             { code := .REPLACE, location := 7, new_byte := 255 }] :=
  ⟨by decide, c3_codec_roundtrip _ (by decide)⟩

/-- Skipping one full 6-byte record shifts indexed access into the rest of
the stream. -/
theorem getD_cons_six (a b c d e f : Nat) (l : List Nat) (n : Nat) :
    (a :: b :: c :: d :: e :: f :: l).getD (n + 6) 0 = l.getD n 0 := rfl

/-- Claim C4: decoding succeeds exactly when the stream length is a
multiple of 6 and the tag byte heading each 6-byte record is 0, 1 or 2;
equivalently, it fails (AssertionError from the exact-batch read on a
truncated record, ValueError from `OpCode(...)` on a bad tag, both
reported as MalformedPatch by the spec) precisely on the remaining
inputs. -/
theorem c4_decode_ok_iff : ∀ (s : List Nat),
    (∃ ops, decodeStream s = Except.ok ops) ↔
      (s.length % 6 = 0 ∧ ∀ k, 6 * k < s.length → s.getD (6 * k) 0 < 3)
  | [] => by
    refine iff_of_true ⟨[], rfl⟩ ⟨rfl, ?_⟩
    intro k hk
    simp at hk
  | [a] => by
    refine iff_of_false ?_ (by rintro ⟨h0, -⟩; simp at h0)
    rintro ⟨ops, h⟩
    rw [show decodeStream [a] = Except.error PyErr.assertionError from rfl] at h
    exact Except.noConfusion h
  | [a, b] => by
    refine iff_of_false ?_ (by rintro ⟨h0, -⟩; simp at h0)
    rintro ⟨ops, h⟩
    rw [show decodeStream [a, b] = Except.error PyErr.assertionError from rfl] at h
    exact Except.noConfusion h
  | [a, b, c] => by
    refine iff_of_false ?_ (by rintro ⟨h0, -⟩; simp at h0)
    rintro ⟨ops, h⟩
    rw [show decodeStream [a, b, c] = Except.error PyErr.assertionError from rfl] at h
    exact Except.noConfusion h
  | [a, b, c, d] => by
    refine iff_of_false ?_ (by rintro ⟨h0, -⟩; simp at h0)
    rintro ⟨ops, h⟩
    rw [show decodeStream [a, b, c, d] = Except.error PyErr.assertionError from rfl] at h
    exact Except.noConfusion h
  | [a, b, c, d, e] => by
    refine iff_of_false ?_ (by rintro ⟨h0, -⟩; simp at h0)
    rintro ⟨ops, h⟩
    rw [show decodeStream [a, b, c, d, e] = Except.error PyErr.assertionError from rfl] at h
    exact Except.noConfusion h
  | t :: l0 :: l1 :: l2 :: l3 :: p :: rest => by
    have ih := c4_decode_ok_iff rest
    constructor
    · rintro ⟨ops, h⟩
      rw [decodeStream] at h
      cases hc : opCodeOfNat t with
      | error e => rw [hc] at h; exact Except.noConfusion h
      | ok c =>
        rw [hc] at h
        cases hr : decodeStream rest with
        | error e => rw [hr] at h; exact Except.noConfusion h
        | ok ops2 =>
          have ht : t < 3 := by
            by_contra hge
            rw [opCodeOfNat, if_neg (by omega), if_neg (by omega), if_neg (by omega)] at hc
            exact Except.noConfusion hc
          obtain ⟨hlen, htags⟩ := ih.mp ⟨ops2, hr⟩
          refine ⟨by simp; omega, ?_⟩
          intro k hk
          cases k with
          | zero => simpa using ht
          | succ k =>
            rw [show 6 * (k + 1) = 6 * k + 6 from by ring, getD_cons_six]
            apply htags
            simp at hk
            omega
    · rintro ⟨hlen, htags⟩
      have ht : t < 3 := by simpa using htags 0 (by simp)
      have hrest : rest.length % 6 = 0 := by simp at hlen; omega
      have htags2 : ∀ k, 6 * k < rest.length → rest.getD (6 * k) 0 < 3 := by
        intro k hk
        have hx := htags (k + 1) (by simp; omega)
        rw [show 6 * (k + 1) = 6 * k + 6 from by ring, getD_cons_six] at hx
        exact hx
      obtain ⟨ops2, hr⟩ := ih.mpr ⟨hrest, htags2⟩
      have hc : ∃ c, opCodeOfNat t = .ok c := by
        interval_cases t
        · exact ⟨_, rfl⟩
        · exact ⟨_, rfl⟩
        · exact ⟨_, rfl⟩
      obtain ⟨c, hc⟩ := hc
      exact ⟨_, by rw [decodeStream, hc, hr]⟩

/-- Invariant of the backtracking walk: every emitted operation carries the
predecessor row index of the cell at which it was emitted, and that index
never exceeds the location of any operation already accumulated, so the
accumulator stays sorted by location. -/
theorem walkFuel_pairwise (s1 s2 : List Nat) :
    ∀ (fuel : Nat) (i j : Int) (acc ops : List Operation),
      ((0 ≤ i ∧ 0 ≤ j) ∨ (i = -1 ∧ j = -1)) →
      (∀ a ∈ acc, i ≤ a.location) →
      List.Pairwise locle acc →
      walkFuel s1 s2 fuel i j acc = Except.ok ops →
      List.Pairwise locle ops := by
  intro fuel
  induction fuel with
  | zero =>
    intro i j acc ops _ _ _ h
    simp [walkFuel] at h
  | succ fuel ih =>
    intro i j acc ops hstate hacc hsort h
    rw [walkFuel] at h
    by_cases hij : i = -1 ∧ j = -1
    · rw [if_pos hij] at h
      injection h with h2
      subst h2
      exact hsort
    · rw [if_neg hij] at h
      have hnn : 0 ≤ i ∧ 0 ≤ j := hstate.resolve_right hij
      have hiI : ((i.toNat : Int)) = i := Int.toNat_of_nonneg hnn.1
      set d := levenstein_distance s1 s2 i.toNat j.toNat with hd
      have hprev : (d.prev_i = -1 ∧ d.prev_j = -1) ∨
          (0 ≤ d.prev_i ∧ 0 ≤ d.prev_j ∧ d.prev_i ≤ (i.toNat : Int)) :=
        drow_prev s1 s2 i.toNat j.toNat
      have hstate2 : (0 ≤ d.prev_i ∧ 0 ≤ d.prev_j) ∨ (d.prev_i = -1 ∧ d.prev_j = -1) := by
        rcases hprev with h1 | h1
        · exact Or.inr ⟨h1.1, h1.2⟩
        · exact Or.inl ⟨h1.1, h1.2.1⟩
      have hple : d.prev_i ≤ i := by
        rcases hprev with h1 | h1
        · rw [h1.1]; omega
        · calc d.prev_i ≤ (i.toNat : Int) := h1.2.2
            _ = i := hiI
      have hconsinv : ∀ (c : OpCode) (v : Nat),
          ∀ a ∈ ({ code := c, location := d.prev_i, new_byte := v } : Operation) :: acc,
            d.prev_i ≤ a.location := by
        intro c v a ha
        rcases List.mem_cons.mp ha with rfl | ha
        · exact le_refl _
        · exact le_trans hple (hacc a ha)
      have hconssort : ∀ (c : OpCode) (v : Nat),
          List.Pairwise locle
            (({ code := c, location := d.prev_i, new_byte := v } : Operation) :: acc) := by
        intro c v
        exact List.Pairwise.cons (fun a ha => le_trans hple (hacc a ha)) hsort
      have hnoopinv : ∀ a ∈ acc, d.prev_i ≤ a.location :=
        fun a ha => le_trans hple (hacc a ha)
      split at h
      · exact ih _ _ _ _ hstate2 (hconsinv _ _) (hconssort _ _) h
      · split at h
        · split at h
          · exact Except.noConfusion h
          · exact ih _ _ _ _ hstate2 (hconsinv _ _) (hconssort _ _) h
        · split at h
          · split at h
            · exact Except.noConfusion h
            · split at h
              · exact Except.noConfusion h
              · split at h
                · split at h
                  · exact Except.noConfusion h
                  · exact ih _ _ _ _ hstate2 (hconsinv _ _) (hconssort _ _) h
                · exact ih _ _ _ _ hstate2 hnoopinv hsort h
          · exact ih _ _ _ _ hstate2 hnoopinv hsort h

/-- Claim C9: whenever the path reconstructor produces an operation
sequence (in the final, reversed order), the sequence's locations are
non-decreasing. -/
theorem c9_locations_sorted (s1 s2 : List Nat) (ops : List Operation)
    (h : edit_path s1 s2 = Except.ok ops) : List.Pairwise locle ops := by
  refine walkFuel_pairwise s1 s2 (s1.length + s2.length + 2) (s1.length : Int)
    (s2.length : Int) [] ops (Or.inl ⟨Int.natCast_nonneg _, Int.natCast_nonneg _⟩) ?_ ?_ h
  · intro a ha
    exact absurd ha (List.not_mem_nil a)
  · exact List.Pairwise.nil

/-- Witness for `c9_locations_sorted` at `s1 = [1, 2]`, `s2 = [1, 3]`
(where the sentinel bug emits a leading location -1 operation; the list is
still non-decreasing). -/
theorem c9_locations_sorted_witness :
    edit_path [1, 2] [1, 3] =
      Except.ok [{ code := .REPLACE, location := -1, new_byte := 3 },
                 { code := .REPLACE, location := 1, new_byte := 3 }] ∧
    List.Pairwise locle
      [({ code := .REPLACE, location := -1, new_byte := 3 } : Operation),
       { code := .REPLACE, location := 1, new_byte := 3 }] :=
  ⟨rfl, c9_locations_sorted [1, 2] [1, 3] _ rfl⟩
